import Mathlib

/-!
Verification development for the FatBit weight tracker
(`webapp.py`, `FatBit.py`).

Shallow embedding conventions:
* Python / SQLite numeric values are modelled as exact rationals (`ℚ`);
  IEEE-754 rounding, `NaN` cells produced by pandas for empty CSV fields,
  and SQLite column-affinity coercions are outside the model.
* JSON scalars are modelled by `JVal` (`null` is identified with an absent
  key, which is observationally equivalent for Python's `dict.get`).
* Archive members are modelled as already-parsed contents
  (`FileContent`): byte-level CSV/JSON/zip parsing is not modelled, and
  archives are assumed to have distinct member names.
* Exceptions are modelled with `Except`; because SQLite commits after each
  insert, the stateful import functions return the store alongside the
  `Except` result so that partial commits are preserved on failure.
-/

set_option maxHeartbeats 1000000

namespace FatBit

/-- A scalar value as seen by the Python code (JSON scalar / CSV cell /
SQLite cell).  `jint` and `jnum` are kept separate because Python keeps
`int` and `float` distinct for `str()` while `==` compares them
numerically. -/
inductive JVal where
  | jint (n : Int)
  | jnum (q : ℚ)
  | jstr (s : String)
deriving DecidableEq, Repr

/-- Python truthiness of an optional value (`None`, `0`, `0.0` and `""`
are falsy). -/
def truthy : Option JVal → Bool
  | none => false
  | some (.jint n) => n != 0
  | some (.jnum q) => q != 0
  | some (.jstr s) => s != ""

/-- Python's short-circuit `a or b`: the value of `a` if it is truthy,
otherwise the value of `b` (even when `b` is falsy). -/
def pyOr (a b : Option JVal) : Option JVal := if truthy a then a else b

/-- Python `==` / SQLite `=` between scalar values: numeric values compare
by value across `int`/`float`, strings compare as strings, and values of
different kinds are unequal. -/
def pyEq (a b : JVal) : Bool :=
  match a, b with
  | .jint m, .jint n => m == n
  | .jint m, .jnum q => (m : ℚ) == q
  | .jnum q, .jint n => q == (n : ℚ)
  | .jnum p, .jnum q => p == q
  | .jstr s, .jstr t => s == t
  | _, _ => false

/-- Does `cs` start with `pat`? (structural replacement for core string
functions, so that concrete imports evaluate by `rfl`/`decide`). -/
def charsStartWith : List Char → List Char → Bool
  | [], _ => true
  | _ :: _, [] => false
  | a :: as, b :: bs => a == b && charsStartWith as bs

/-- Python `s.startswith(pat)`. -/
def strStartsWith (s pat : String) : Bool :=
  charsStartWith pat.data s.data

/-- Python `s.endswith(pat)`. -/
def strEndsWith (s pat : String) : Bool :=
  charsStartWith pat.data.reverse s.data.reverse

/-- Python `s.lower()` (ASCII letters; the member names in scope are
ASCII). -/
def lowerAscii (s : String) : String :=
  String.mk (s.data.map Char.toLower)

/-- Strip leading and trailing whitespace from a character list. -/
def trimChars (cs : List Char) : List Char :=
  ((cs.dropWhile Char.isWhitespace).reverse.dropWhile Char.isWhitespace).reverse

/-- Python `s.strip()`. -/
def strTrim (s : String) : String :=
  String.mk (trimChars s.data)

/-- Python `c in s` for a single character. -/
def strContainsChar (s : String) (c : Char) : Bool :=
  s.data.any (fun a => a == c)

/-- A Python dict (a JSON object row / a CSV row), in insertion order. -/
abbrev Row := List (String × JVal)

/-- `row.get(k)`: first binding of `k`, or `None`. -/
def rowGet (row : Row) (k : String) : Option JVal :=
  (row.find? (fun p => p.1 == k)).map (fun p => p.2)

/-- `row[k] = v`: replace in place if the key exists, else append. -/
def rowSet (row : Row) (k : String) (v : JVal) : Row :=
  if row.any (fun p => p.1 == k) then
    row.map (fun p => if p.1 == k then (k, v) else p)
  else row ++ [(k, v)]

/-- `row[k] = v` where `v` may be `None`; since `None`-valued keys are
identified with absent keys in this model, assigning `None` erases the
key. -/
def rowSetOpt (row : Row) (k : String) (v : Option JVal) : Row :=
  match v with
  | some w => rowSet row k w
  | none => row.filter (fun p => !(p.1 == k))

/-- Strip a factor `f` from `n`, counting occurrences (fuelled). -/
def stripFactorAux : Nat → Nat → Nat → Nat × Nat
  | 0, _, n => (0, n)
  | fuel + 1, f, n =>
    if 2 ≤ f ∧ 2 ≤ n ∧ n % f == 0 then
      let r := stripFactorAux fuel f (n / f)
      (r.1 + 1, r.2)
    else (0, n)

/-- Left-pad a decimal string with zeros to width `k`. -/
def padZeros (k : Nat) (s : String) : String :=
  if s.length < k then String.mk (List.replicate (k - s.length) '0') ++ s else s

/-- `str()` of a Python float, for floats whose value is a terminating
decimal (the only case reachable from decimal source data); rationals
with other denominators get a total fallback rendering. -/
def floatRepr (q : ℚ) : String :=
  let sgn := if q < 0 then "-" else ""
  let n := q.num.natAbs
  let d := q.den
  let p2 := stripFactorAux d 2 d
  let p5 := stripFactorAux p2.2 5 p2.2
  if p5.2 == 1 then
    let k := max (max p2.1 p5.1) 1
    let scaled := n * (10 ^ k / d)
    sgn ++ toString (scaled / 10 ^ k) ++ "." ++ padZeros k (toString (scaled % 10 ^ k))
  else sgn ++ toString n ++ "/" ++ toString d

/-- Python `str()` of a scalar value. -/
def pyStr : JVal → String
  | .jstr s => s
  | .jint n => toString n
  | .jnum q => floatRepr q

/-- Python `str()` of a possibly-`None` value (`str(None) = "None"`). -/
def pyStrOpt : Option JVal → String
  | none => "None"
  | some v => pyStr v

/-- Consume a run of decimal digits, returning value, count and rest. -/
def digitsAux : List Char → Nat → Nat → Nat × Nat × List Char
  | [], acc, cnt => (acc, cnt, [])
  | c :: cs, acc, cnt =>
    if c.isDigit then digitsAux cs (acc * 10 + (c.toNat - 48)) (cnt + 1)
    else (acc, cnt, c :: cs)

/-- Exponent tail of a Python float literal. -/
def parseExpAux (sgn : ℚ) (ip fp : Nat) (fc : Nat) (r : List Char) : Option ℚ :=
  let sr : Bool × List Char :=
    match r with
    | '-' :: t => (true, t)
    | '+' :: t => (false, t)
    | _ => (false, r)
  let dr := digitsAux sr.2 0 0
  if dr.2.1 == 0 then none
  else
    match dr.2.2 with
    | [] =>
      let base := sgn * ((ip : ℚ) + (fp : ℚ) / 10 ^ fc)
      some (if sr.1 then base / 10 ^ dr.1 else base * 10 ^ dr.1)
    | _ => none

/-- Python `float(s)` on a decimal literal with optional sign, fraction
and exponent (surrounding whitespace stripped); `inf`, `nan` and digit
underscores are not modelled. `none` models `ValueError`. -/
def parseDecimal? (s : String) : Option ℚ :=
  let cs := trimChars s.data
  let sc : ℚ × List Char :=
    match cs with
    | '-' :: r => (-1, r)
    | '+' :: r => (1, r)
    | _ => (1, cs)
  let ir := digitsAux sc.2 0 0
  let fr : Nat × Nat × List Char :=
    match ir.2.2 with
    | '.' :: r => digitsAux r 0 0
    | _ => (0, 0, ir.2.2)
  if ir.2.1 + fr.2.1 == 0 then none
  else
    match fr.2.2 with
    | [] => some (sc.1 * ((ir.1 : ℚ) + (fr.1 : ℚ) / 10 ^ fr.2.1))
    | 'e' :: r => parseExpAux sc.1 ir.1 fr.1 fr.2.1 r
    | 'E' :: r => parseExpAux sc.1 ir.1 fr.1 fr.2.1 r
    | _ => none

/-- Python `float(v)`: numbers convert by value, strings are parsed
(`ValueError` on failure, modelled as `Except.error`). -/
def pyFloat : JVal → Except String ℚ
  | .jint n => .ok (n : ℚ)
  | .jnum q => .ok q
  | .jstr s =>
    match parseDecimal? s with
    | some q => .ok q
    | none => .error "could not convert string to float"

/-- Numeric view of a value for arithmetic/comparison with a number;
comparing or multiplying a `str` raises `TypeError` in Python 3. -/
def pyToRat : JVal → Except String ℚ
  | .jint n => .ok (n : ℚ)
  | .jnum q => .ok q
  | .jstr _ => .error "TypeError"

/-- A `datetime.datetime` value (only the fields used by the program). -/
structure PyDT where
  year : Nat
  month : Nat
  day : Nat
  hour : Nat
  minute : Nat
  second : Nat
deriving DecidableEq, Repr

/-- Value of a decimal digit character. -/
def digVal? (c : Char) : Option Nat :=
  if c.isDigit then some (c.toNat - 48) else none

/-- Match exactly two digits whose values satisfy `f1`, `f2`
(one alternative of a CPython `_strptime` field pattern). -/
def matchTwo (f1 f2 : Nat → Bool) : List Char → Option (Nat × List Char)
  | a :: b :: rest =>
    match digVal? a, digVal? b with
    | some x, some y => if f1 x && f2 y then some (10 * x + y, rest) else none
    | _, _ => none
  | _ => none

/-- Match exactly one digit whose value satisfies `f`. -/
def matchOne (f : Nat → Bool) : List Char → Option (Nat × List Char)
  | a :: rest =>
    match digVal? a with
    | some x => if f x then some (x, rest) else none
    | none => none
  | [] => none

/-- Match exactly four digits (CPython pattern for `%Y`). -/
def matchFour : List Char → Option (Nat × List Char)
  | a :: b :: c :: d :: rest =>
    match digVal? a, digVal? b, digVal? c, digVal? d with
    | some w, some x, some y, some z => some (1000 * w + 100 * x + 10 * y + z, rest)
    | _, _, _, _ => none
  | _ => none

/-- Ordered regex alternation with backtracking into the continuation,
mirroring how Python's `re` tries the branches of a `_strptime` field
pattern. -/
def tryAlts (alts : List (List Char → Option (Nat × List Char))) (cs : List Char)
    (k : Nat → List Char → Option PyDT) : Option PyDT :=
  match alts with
  | [] => none
  | a :: rest =>
    match a cs with
    | some (n, cs1) =>
      match k n cs1 with
      | some r => some r
      | none => tryAlts rest cs k
    | none => tryAlts rest cs k

/-- CPython `%m` pattern `1[0-2]|0[1-9]|[1-9]`. -/
def altsMonth : List (List Char → Option (Nat × List Char)) :=
  [matchTwo (fun x => x == 1) (fun y => decide (y ≤ 2)),
   matchTwo (fun x => x == 0) (fun y => decide (1 ≤ y)),
   matchOne (fun x => decide (1 ≤ x))]

/-- CPython `%d` pattern `3[01]|[12]\d|0[1-9]|[1-9]`. -/
def altsDay : List (List Char → Option (Nat × List Char)) :=
  [matchTwo (fun x => x == 3) (fun y => decide (y ≤ 1)),
   matchTwo (fun x => x == 1 || x == 2) (fun _ => true),
   matchTwo (fun x => x == 0) (fun y => decide (1 ≤ y)),
   matchOne (fun x => decide (1 ≤ x))]

/-- CPython `%y` pattern `\d\d`. -/
def altsYear2 : List (List Char → Option (Nat × List Char)) :=
  [matchTwo (fun _ => true) (fun _ => true)]

/-- CPython `%H` pattern `2[0-3]|[0-1]\d|\d`. -/
def altsHour : List (List Char → Option (Nat × List Char)) :=
  [matchTwo (fun x => x == 2) (fun y => decide (y ≤ 3)),
   matchTwo (fun x => decide (x ≤ 1)) (fun _ => true),
   matchOne (fun _ => true)]

/-- CPython `%M` pattern `[0-5]\d|\d`. -/
def altsMinute : List (List Char → Option (Nat × List Char)) :=
  [matchTwo (fun x => decide (x ≤ 5)) (fun _ => true),
   matchOne (fun _ => true)]

/-- CPython `%S` pattern `6[0-1]|[0-5]\d|\d`. -/
def altsSecond : List (List Char → Option (Nat × List Char)) :=
  [matchTwo (fun x => x == 6) (fun y => decide (y ≤ 1)),
   matchTwo (fun x => decide (x ≤ 5)) (fun _ => true),
   matchOne (fun _ => true)]

/-- Match a literal character of the format string. -/
def litChar (c : Char) (cs : List Char) (k : List Char → Option PyDT) : Option PyDT :=
  match cs with
  | a :: rest => if a == c then k rest else none
  | [] => none

/-- A whitespace character in a `strptime` format matches a nonempty run
of whitespace (`\s+`); consuming it greedily is equivalent here because
every field that follows starts with a digit. -/
def wsRun (cs : List Char) (k : List Char → Option PyDT) : Option PyDT :=
  match cs with
  | a :: rest =>
    if a.isWhitespace then k (rest.dropWhile Char.isWhitespace) else none
  | [] => none

def isLeapYear (y : Nat) : Bool :=
  y % 4 == 0 && (y % 100 != 0 || y % 400 == 0)

def daysInMonth (y m : Nat) : Nat :=
  if m == 2 then (if isLeapYear y then 29 else 28)
  else if m == 4 || m == 6 || m == 9 || m == 11 then 30
  else 31

/-- `datetime.strptime(s, "%m/%d/%y %H:%M:%S")`: `none` models the
`ValueError` on a failed match or invalid date (including the `%y`
century pivot 69, day-of-month validation, and rejection of leap
seconds by the `datetime` constructor). -/
def strptimeMdyHms (s : String) : Option PyDT :=
  tryAlts altsMonth s.toList (fun mo cs =>
  litChar '/' cs (fun cs =>
  tryAlts altsDay cs (fun dy cs =>
  litChar '/' cs (fun cs =>
  tryAlts altsYear2 cs (fun yy cs =>
  wsRun cs (fun cs =>
  tryAlts altsHour cs (fun hh cs =>
  litChar ':' cs (fun cs =>
  tryAlts altsMinute cs (fun mi cs =>
  litChar ':' cs (fun cs =>
  tryAlts altsSecond cs (fun ss cs =>
  match cs with
  | [] =>
    let yr := if yy ≤ 68 then 2000 + yy else 1900 + yy
    if dy ≤ daysInMonth yr mo ∧ ss ≤ 59 then some ⟨yr, mo, dy, hh, mi, ss⟩
    else none
  | _ => none)))))))))))

/-- `datetime.strptime(s, "%Y-%m-%d")` (year `0000` is rejected by the
`datetime` constructor, `MINYEAR = 1`). -/
def strptimeYmd (s : String) : Option PyDT :=
  match matchFour s.toList with
  | some (yr, cs) =>
    litChar '-' cs (fun cs =>
    tryAlts altsMonth cs (fun mo cs =>
    litChar '-' cs (fun cs =>
    tryAlts altsDay cs (fun dy cs =>
    match cs with
    | [] =>
      if 1 ≤ yr ∧ dy ≤ daysInMonth yr mo then some ⟨yr, mo, dy, 0, 0, 0⟩
      else none
    | _ => none))))
  | none => none

/-- Zero-pad a number to width `w`. -/
def padNum (w n : Nat) : String :=
  padZeros w (toString n)

/-- `dt.strftime("%m/%d/%y")`. -/
def strftimeMdy (d : PyDT) : String :=
  padNum 2 d.month ++ "/" ++ padNum 2 d.day ++ "/" ++ padNum 2 (d.year % 100)

/-- `dt.strftime("%Y-%m-%d %H:%M:%S")`. -/
def strftimeIsoDT (d : PyDT) : String :=
  padNum 4 d.year ++ "-" ++ padNum 2 d.month ++ "-" ++ padNum 2 d.day ++ " " ++
  padNum 2 d.hour ++ ":" ++ padNum 2 d.minute ++ ":" ++ padNum 2 d.second

/-- A persisted row of the `entries` table (`webapp.py` /`FatBit.py`
`create_table`). -/
structure StoredRow where
  id : Int
  logId : Option JVal
  date : String
  time : String
  timestamp : String
  weight_kg : Option JVal
  fat_percent : Option JVal
  bmi : Option JVal
  source : Option JVal
deriving DecidableEq, Repr

/-- The SQLite store: rows in insertion order plus the `AUTOINCREMENT`
counter. -/
structure Store where
  rows : List StoredRow
  nextId : Int
deriving DecidableEq, Repr

def emptyStore : Store := ⟨[], 1⟩

/-- The timestamp derivation shared by `add_entry`, `update_entry` and
`add_if_new`: reformat `"date time"` via
`strptime("%m/%d/%y %H:%M:%S")`/`strftime("%Y-%m-%d %H:%M:%S")`, falling
back to the raw concatenation when parsing raises. -/
def deriveTimestamp (date time : String) : String :=
  match strptimeMdyHms (date ++ " " ++ time) with
  | some dt => strftimeIsoDT dt
  | none => date ++ " " ++ time

/-- An entry dict as built by `webapp.py` (import paths and form
routes) before being handed to the `DataManager`. -/
structure Entry where
  logId : Option JVal
  date : String
  time : String
  weight_kg : Option JVal
  fat_percent : Option JVal
  bmi : Option JVal
  source : String
deriving DecidableEq, Repr

/-- The row written for entry `e` with surrogate key `rid` (the column
list shared by the `INSERT` of `add_entry` and the `UPDATE` of
`update_entry`). -/
def mkRow (rid : Int) (e : Entry) : StoredRow :=
  ⟨rid, e.logId, e.date, e.time, deriveTimestamp e.date e.time,
   e.weight_kg, e.fat_percent, e.bmi, some (.jstr e.source)⟩

/-- `DataManager.add_entry` (`webapp.py` lines 42-64). -/
def add_entry (e : Entry) (s : Store) : Store :=
  ⟨s.rows ++ [mkRow s.nextId e], s.nextId + 1⟩

/-- `SELECT 1 FROM entries WHERE logId=?` is nonempty. -/
def hasLog (s : Store) (v : JVal) : Bool :=
  s.rows.any (fun r =>
    match r.logId with
    | some w => pyEq w v
    | none => false)

/-- `SELECT 1 FROM entries WHERE timestamp=?` is nonempty. -/
def hasTs (s : Store) (ts : String) : Bool :=
  s.rows.any (fun r => r.timestamp == ts)

/-- `DataManager.entry_exists` (`webapp.py` lines 66-77). -/
def entry_exists (logId : Option JVal) (ts : String) (s : Store) : Bool :=
  (match logId with
   | some v => hasLog s v
   | none => false) || hasTs s ts

/-- `DataManager.add_if_new` (`webapp.py` lines 114-125). -/
def add_if_new (e : Entry) (s : Store) : Bool × Store :=
  let ts := deriveTimestamp e.date e.time
  if entry_exists e.logId ts s then (false, s)
  else (true, add_entry e s)

/-- `DataManager.update_entry` (`webapp.py` lines 83-107): rewrite every
row whose `id` matches (ids are unique in practice), leaving others
untouched; a missing `id` is a silent no-op. -/
def update_entry (entryId : Int) (e : Entry) (s : Store) : Store :=
  ⟨s.rows.map (fun r => if r.id == entryId then mkRow r.id e else r), s.nextId⟩

/-- `DataManager.delete_entry` (`webapp.py` lines 109-112). -/
def delete_entry (entryId : Int) (s : Store) : Store :=
  ⟨s.rows.filter (fun r => !(r.id == entryId)), s.nextId⟩

/-- Result of processing one decoded row inside `import_fitbit_zip`:
`continue`d, raised, or produced an entry dict for `add_if_new`. -/
inductive StepRes where
  | skip
  | fail (msg : String)
  | entry (e : Entry)
deriving DecidableEq, Repr

/-- The conversion factor `0.45359237` (pounds to kilograms). -/
def lbToKg : ℚ := 45359237 / 100000000

/-- The archive-import weight heuristic (`webapp.py` lines 164-165 and
214-215): `float` values above 200 are taken to be pounds. -/
def zipNormalize (q : ℚ) : ℚ :=
  if 200 < q then q * lbToKg else q

/-- The shared date reformatting expression of `import_fitbit_zip`
(lines 169-170 and 219-220): a `str` containing `-` is reparsed as
`%Y-%m-%d` and reformatted as `%m/%d/%y` (raising on mismatch); anything
else goes through `str()`. -/
def reformatDate (v : Option JVal) : Except String String :=
  match v with
  | some (.jstr str) =>
    if strContainsChar str '-' then
      match strptimeYmd str with
      | some d => .ok (strftimeMdy d)
      | none => .error "time data does not match format"
    else .ok str
  | _ => .ok (pyStrOpt v)

/-- `row.get("weight") or row.get("weight (kg)")` (CSV path, line 160). -/
def csvResolveWeight (row : Row) : Option JVal :=
  pyOr (rowGet row "weight") (rowGet row "weight (kg)")

/-- One iteration of the CSV loop of `import_fitbit_zip`
(lines 157-179), up to the `add_if_new` call. -/
def csvRowStep (src : String) (row : Row) : StepRes :=
  match csvResolveWeight row with
  | none => .skip
  | some w =>
    match pyFloat w with
    | .error m => .fail m
    | .ok q =>
      match reformatDate (rowGet row "date") with
      | .error m => .fail m
      | .ok d =>
        .entry ⟨rowGet row "logid", d,
                pyStr ((rowGet row "time").getD (.jstr "00:00:00")),
                some (.jnum (zipNormalize q)),
                rowGet row "fat", rowGet row "bmi", src⟩

/-- `row.get('weight') or row.get('weight_kg') or row.get('weight (kg)')`
(JSON path, lines 209-210). -/
def jsonResolveWeight (row : Row) : Option JVal :=
  pyOr (pyOr (rowGet row "weight") (rowGet row "weight_kg")) (rowGet row "weight (kg)")

/-- `row.get('date') or row.get('dateTime')` (line 207). -/
def jsonResolveDate (row : Row) : Option JVal :=
  pyOr (rowGet row "date") (rowGet row "dateTime")

/-- `row.get('logId') or row.get('logid')` (line 218). -/
def jsonResolveLogId (row : Row) : Option JVal :=
  pyOr (rowGet row "logId") (rowGet row "logid")

/-- One iteration of the JSON loop of `import_fitbit_zip`
(lines 206-229), up to the `add_if_new` call. -/
def jsonRowStep (src : String) (row : Row) : StepRes :=
  match jsonResolveWeight row, jsonResolveDate row with
  | some w, some dv =>
    (match pyFloat w with
     | .error m => .fail m
     | .ok q =>
       match reformatDate (some dv) with
       | .error m => .fail m
       | .ok d =>
         .entry ⟨jsonResolveLogId row, d,
                 pyStr ((rowGet row "time").getD (.jstr "00:00:00")),
                 some (.jnum (zipNormalize q)),
                 pyOr (rowGet row "fat") (rowGet row "fat_percent"),
                 rowGet row "bmi", src⟩)
  | _, _ => .skip

/-- Run a per-row step over decoded rows, feeding produced entries to
`add_if_new` and counting the newly inserted ones; an exception stops
processing but the rows already committed stay committed. -/
def processRows (step : Row → StepRes) : List Row → Store → (Except String Nat) × Store
  | [], s => (.ok 0, s)
  | r :: rs, s =>
    match step r with
    | .skip => processRows step rs s
    | .fail msg => (.error msg, s)
    | .entry e =>
      match add_if_new e s with
      | (true, s1) =>
        let res := processRows step rs s1
        (res.1.map (· + 1), res.2)
      | (false, s1) => processRows step rs s1

/-- One value of a top-level JSON dict: either a scalar or a list of
row objects. -/
inductive JDictVal where
  | scalar (v : JVal)
  | vlist (rows : List Row)
deriving DecidableEq, Repr

/-- A parsed `weight-*.json` payload: a list of rows, or a dict whose
values are scanned for the first list (lines 193-204). -/
inductive JTop where
  | tlist (rows : List Row)
  | tdict (fields : List (String × JDictVal))
deriving DecidableEq, Repr

/-- Lines 195-204: a dict is replaced by its first list value; a dict
with no list value becomes a one-element list holding the dict itself. -/
def extractJsonRows : JTop → List Row
  | .tlist rows => rows
  | .tdict fields =>
    match fields.find? (fun p =>
        match p.2 with
        | .vlist _ => true
        | .scalar _ => false) with
    | some (_, .vlist rows) => rows
    | _ =>
      [fields.filterMap (fun p =>
        match p.2 with
        | .scalar v => some (p.1, v)
        | .vlist _ => none)]

/-- An archive member, modelled as already-parsed content. -/
inductive FileContent where
  | csv (rows : List Row)
  | json (top : JTop)
  | other
deriving DecidableEq, Repr

/-- A ZIP archive: named members in `namelist()` order. -/
abbrev Archive := List (String × FileContent)

/-- `zf.open(name)`: content of the first member with that name. -/
def getFile (A : Archive) (name : String) : Option FileContent :=
  (A.find? (fun p => p.1 == name)).map (fun p => p.2)

/-- `os.path.basename` for ZIP member names (separator `/`). -/
def basename (s : String) : String :=
  String.mk ((s.data.reverse.takeWhile (fun c => !(c == '/'))).reverse)

/-- The JSON-member name filter of line 185:
`n.lower().endswith('.json') and os.path.basename(n).lower().startswith('weight-')`. -/
def isWeightJsonName (n : String) : Bool :=
  strEndsWith (lowerAscii n) ".json" && strStartsWith (lowerAscii (basename n)) "weight-"

/-- `df.columns = [c.strip().lower() for c in df.columns]` (line 155),
applied to a decoded CSV row. -/
def normalizeColumns (row : Row) : Row :=
  row.map (fun p => (lowerAscii (strTrim p.1), p.2))

/-- The JSON-files loop of `import_fitbit_zip` (lines 189-229). -/
def processJsonNames (src : String) (A : Archive) :
    List String → Store → (Except String Nat) × Store
  | [], s => (.ok 0, s)
  | n :: ns, s =>
    match getFile A n with
    | some (.json top) =>
      match processRows (jsonRowStep src) (extractJsonRows top) s with
      | (.ok k, s1) =>
        let res := processJsonNames src A ns s1
        (res.1.map (k + ·), res.2)
      | (.error m, s1) => (.error m, s1)
    | _ => (.error "json read failure", s)

/-- `import_fitbit_zip` (`webapp.py` lines 137-231).  Returns the
`new_count` (or the raised exception) together with the store, which
keeps every row committed before a failure. -/
def import_fitbit_zip (src : String) (A : Archive) (s : Store) :
    (Except String Nat) × Store :=
  let names := A.map (fun p => p.1)
  match names.find? (fun n => strEndsWith n "Weight.csv") with
  | some wname =>
    match getFile A wname with
    | some (.csv rows) => processRows (csvRowStep src) (rows.map normalizeColumns) s
    | _ => (.error "csv read failure", s)
  | none =>
    match names.filter isWeightJsonName with
    | [] => (.error "No weight data found in ZIP", s)
    | jn => processJsonNames src A jn s

/-- `import_zip_route` (`webapp.py` lines 263-276): the upload handler
catches any import exception, so the app keeps the store that
`import_fitbit_zip` left behind.  `height` is the configured
`data_manager.height`, which this route never consults. -/
def import_zip_route (_height : Option ℚ) (src : String) (A : Archive) (s : Store) : Store :=
  (import_fitbit_zip src A s).2

/-- A sequence of uploads (one `import_zip_route` request per archive,
or one iteration of `MainWindow.load_files` per file): each failure is
recorded and the batch continues from the store as committed so far. -/
def importBatch (src : String) : List Archive → Store → Nat × List String × Store
  | [], s => (0, [], s)
  | A :: rest, s =>
    match import_fitbit_zip src A s with
    | (.ok n, s1) =>
      let r := importBatch src rest s1
      (n + r.1, r.2.1, r.2.2)
    | (.error msg, s1) =>
      let r := importBatch src rest s1
      (r.1, msg :: r.2.1, r.2.2)

/-- `add_entry` route (`webapp.py` lines 244-260): BMI is recomputed
only when the configured height is truthy (nonzero); with a truthy
height but no submitted weight Python raises `TypeError` before any
write. -/
def add_entry_route (height : Option ℚ) (logId : Option Int) (date time : String)
    (weight fat : Option ℚ) (src : String) (s : Store) : Except String Store :=
  let e : Entry :=
    ⟨logId.map .jint, date, time, weight.map .jnum, fat.map .jnum, none, src⟩
  match height with
  | some h =>
    if h == 0 then .ok (add_entry e s)
    else
      match weight with
      | some w => .ok (add_entry { e with bmi := some (.jnum (w / h ^ 2)) } s)
      | none => .error "TypeError"
  | none => .ok (add_entry e s)

/-- POST branch of the `edit_entry` route (`webapp.py` lines 285-304),
after the row lookup. -/
def edit_entry_route (height : Option ℚ) (entryId : Int) (logId : Option Int)
    (date time : String) (weight fat : Option ℚ) (src : String) (s : Store) :
    Except String Store :=
  let e : Entry :=
    ⟨logId.map .jint, date, time, weight.map .jnum, fat.map .jnum, none, src⟩
  match height with
  | some h =>
    if h == 0 then .ok (update_entry entryId e s)
    else
      match weight with
      | some w => .ok (update_entry entryId { e with bmi := some (.jnum (w / h ^ 2)) } s)
      | none => .error "TypeError"
  | none => .ok (update_entry entryId e s)

/-- `DataManager.add_entry` of `FatBit.py` (lines 41-61): receives the
raw (mutated) row dict.  `entry['date'] + " " + entry['time']` raises
`KeyError` on a missing key and `TypeError` on a non-string value;
columns are read with `entry.get(...)` (note `fat_percent` is filled
from the `"fat"` key). -/
def gui_add_entry (row : Row) (s : Store) : Except String Store :=
  match rowGet row "date", rowGet row "time" with
  | some (.jstr d), some (.jstr t) =>
    .ok ⟨s.rows ++ [⟨s.nextId, rowGet row "logId", d, t, deriveTimestamp d t,
                     rowGet row "weight_kg", rowGet row "fat", rowGet row "bmi",
                     rowGet row "source"⟩], s.nextId + 1⟩
  | none, _ => .error "KeyError: date"
  | _, none => .error "KeyError: time"
  | _, _ => .error "TypeError"

/-- The device-import weight heuristic of `_process_json_file`
(`FatBit.py` lines 223-224): values above 100 are taken to be pounds;
a value at or under 100 is kept as the original object. -/
def guiNormalize (v : JVal) (q : ℚ) : JVal :=
  if 100 < q then .jnum (q * lbToKg) else v

/-- One iteration of `MainWindow._process_json_file` (`FatBit.py` lines
220-234) before the `add_entry` call: mutate the row dict, threading the
`weight_kg` local variable, which keeps its value from the previous row
when the current row has no weight (`prevW = none` models the
`NameError` of an unbound `weight_kg`). -/
def guiProcessRow (height : Option ℚ) (prevW : Option JVal) (row : Row) :
    Except String (Row × Option JVal) :=
  let wstep : Except String (Row × Option JVal) :=
    match rowGet row "weight" with
    | some v =>
      match pyToRat v with
      | .error m => .error m
      | .ok q =>
        let wkg := guiNormalize v q
        .ok (rowSet row "weight_kg" wkg, some wkg)
    | none => .ok (row, prevW)
  match wstep with
  | .error m => .error m
  | .ok (row1, wvar) =>
    match height with
    | some h =>
      if h == 0 then .ok (rowSetOpt row1 "bmi" (rowGet row1 "bmi"), wvar)
      else
        match wvar with
        | none => .error "NameError: weight_kg"
        | some wv =>
          match pyToRat wv with
          | .error m => .error m
          | .ok qw => .ok (rowSet row1 "bmi" (.jnum (qw / h ^ 2)), wvar)
    | none => .ok (rowSetOpt row1 "bmi" (rowGet row1 "bmi"), wvar)

/-- `MainWindow._process_json_file` over a decoded list of rows
(`FatBit.py` lines 216-234); every mutated row is persisted via
`gui_add_entry` with no dedup check. -/
def guiProcessRows (height : Option ℚ) :
    List Row → Option JVal → Store → (Except String Unit) × Store
  | [], _, s => (.ok (), s)
  | r :: rs, prevW, s =>
    match guiProcessRow height prevW r with
    | .error m => (.error m, s)
    | .ok (r1, w1) =>
      match gui_add_entry r1 s with
      | .error m => (.error m, s)
      | .ok s1 => guiProcessRows height rs w1 s1

/-- Every `logId` / `timestamp` present in `s` is also present in `t`
(the store only ever grows during an import). -/
def storeExt (s t : Store) : Prop :=
  (∀ v, hasLog s v = true → hasLog t v = true) ∧
  (∀ ts, hasTs s ts = true → hasTs t ts = true)

/-- The duplicate condition of the spec: an existing row shares the
entry's non-null `logId`, or an existing row has the entry's derived
timestamp. -/
def isDuplicate (e : Entry) (s : Store) : Prop :=
  (∃ v, e.logId = some v ∧ hasLog s v = true) ∨
  hasTs s (deriveTimestamp e.date e.time) = true

/-- The archive contains neither a member whose name ends in
`Weight.csv` nor a member with a `weight-*.json` name. -/
def unrecognizedArchive (A : Archive) : Prop :=
  (∀ p ∈ A, strEndsWith p.1 "Weight.csv" = false) ∧
  (∀ p ∈ A, isWeightJsonName p.1 = false)

/-- Concrete archive used to exercise the idempotence theorem. -/
def c1Arc : Archive :=
  [("weight-2023-01.json",
    .json (.tlist [[("dateTime", .jstr "2023-01-05"), ("weight", .jint 70),
                    ("logId", .jint 123)]]))]

/-- The store produced by importing `c1Arc` into an empty store. -/
def c1Store : Store :=
  ⟨[⟨1, some (.jint 123), "01/05/23", "00:00:00", "2023-01-05 00:00:00",
     some (.jnum 70), none, none, some (.jstr "Fitbit")⟩], 2⟩

/-- A concrete manual entry. -/
def c2Entry : Entry :=
  ⟨some (.jint 7), "01/05/23", "08:00:00", some (.jnum 80), none, none, "Manual"⟩

/-- Archive whose JSON row carries a source-provided `bmi`. -/
def c5Arc : Archive :=
  [("weight-a.json",
    .json (.tlist [[("dateTime", .jstr "01/05/23"), ("weight", .jint 70),
                    ("bmi", .jnum 25)]]))]

/-- Archive whose legacy CSV row has a weight but no date column. -/
def c6Arc : Archive := [("Weight.csv", .csv [[("weight", .jint 70)]])]

/-- Archive with no recognized member. -/
def c7BadArc : Archive := [("readme.txt", FileContent.other)]

/-- The end-to-end scenario-1 archive: a legacy CSV with one row. -/
def c8Arc : Archive :=
  [("MyFitbitData/u/Personal & Body/Weight.csv",
    .csv [[("date", .jstr "2023-01-05"), ("time", .jstr "07:00:00"),
           ("weight", .jint 220), ("fat", .jnum (91 / 5))]])]

/-- The row stored for the scenario-1 import
(`220 * 0.45359237 = 99.7903214`). -/
def c8Row : StoredRow :=
  ⟨1, none, "01/05/23", "07:00:00", "2023-01-05 07:00:00",
   some (.jnum (220 * lbToKg)), some (.jnum (91 / 5)), none,
   some (.jstr "Fitbit")⟩

/-- Archive whose JSON row has `logid` (the final synonym) equal to 0. -/
def c9Arc : Archive :=
  [("weight-x.json",
    .json (.tlist [[("dateTime", .jstr "01/05/23"), ("weight", .jint 70),
                    ("logid", .jint 0)]]))]

/-- A JSON row whose only weight synonym is `weight`, with value 0. -/
def c9RowA : Row := [("dateTime", .jstr "01/05/23"), ("weight", .jint 0)]

/-- A JSON row whose only weight synonym is `weight_kg`, with value 0. -/
def c9RowC : Row := [("dateTime", .jstr "01/05/23"), ("weight_kg", .jint 0)]

/-- A JSON row whose only logId synonym is `logId`, with value 0. -/
def c9RowB : Row :=
  [("dateTime", .jstr "01/05/23"), ("weight", .jint 70), ("logId", .jint 0)]

/-- The entry built from `c9RowB` by the JSON row step. -/
def c9EntryB : Entry :=
  ⟨none, "01/05/23", "00:00:00", some (.jnum 70), none, none, "Fitbit"⟩

/-- A GUI JSON row with date and time but no weight. -/
def c6GuiRow : Row := [("date", .jstr "01/05/23"), ("time", .jstr "08:00:00")]

/-- A two-row store for exercising the update/delete frame theorem. -/
def c10Store : Store :=
  ⟨[⟨1, none, "01/05/23", "08:00:00", "2023-01-05 08:00:00", some (.jnum 80),
     none, none, some (.jstr "Manual")⟩,
    ⟨2, none, "01/06/23", "08:00:00", "2023-01-06 08:00:00", some (.jnum 81),
     none, none, some (.jstr "Manual")⟩], 3⟩

/-! ### Equation lemmas for the import loops -/

theorem add_if_new_dup {e : Entry} {s : Store}
    (hex : entry_exists e.logId (deriveTimestamp e.date e.time) s = true) :
    add_if_new e s = (false, s) := by
  simp [add_if_new, hex]

theorem add_if_new_fresh {e : Entry} {s : Store}
    (hex : entry_exists e.logId (deriveTimestamp e.date e.time) s = false) :
    add_if_new e s = (true, add_entry e s) := by
  simp [add_if_new, hex]

theorem processRows_nil (step : Row → StepRes) (s : Store) :
    processRows step [] s = (.ok 0, s) := rfl

theorem processRows_cons_skip {step : Row → StepRes} {r : Row} (rs : List Row)
    (s : Store) (h : step r = .skip) :
    processRows step (r :: rs) s = processRows step rs s := by
  simp [processRows, h]

theorem processRows_cons_fail {step : Row → StepRes} {r : Row} {m : String}
    (rs : List Row) (s : Store) (h : step r = .fail m) :
    processRows step (r :: rs) s = (.error m, s) := by
  simp [processRows, h]

theorem processRows_cons_dup {step : Row → StepRes} {r : Row} {e : Entry}
    (rs : List Row) {s : Store} (h : step r = .entry e)
    (hex : entry_exists e.logId (deriveTimestamp e.date e.time) s = true) :
    processRows step (r :: rs) s = processRows step rs s := by
  simp [processRows, h, add_if_new_dup hex]

theorem processRows_cons_fresh {step : Row → StepRes} {r : Row} {e : Entry}
    (rs : List Row) {s : Store} (h : step r = .entry e)
    (hex : entry_exists e.logId (deriveTimestamp e.date e.time) s = false) :
    processRows step (r :: rs) s =
      ((processRows step rs (add_entry e s)).1.map (· + 1),
       (processRows step rs (add_entry e s)).2) := by
  simp [processRows, h, add_if_new_fresh hex]

theorem processJsonNames_nil (src : String) (A : Archive) (s : Store) :
    processJsonNames src A [] s = (.ok 0, s) := rfl

theorem processJsonNames_cons_ok {src : String} {A : Archive} {n : String}
    {top : JTop} {k : Nat} {s s1 : Store} (ns : List String)
    (hg : getFile A n = some (.json top))
    (hpr : processRows (jsonRowStep src) (extractJsonRows top) s = (.ok k, s1)) :
    processJsonNames src A (n :: ns) s =
      ((processJsonNames src A ns s1).1.map (k + ·),
       (processJsonNames src A ns s1).2) := by
  simp [processJsonNames, hg, hpr]

theorem processJsonNames_cons_err {src : String} {A : Archive} {n : String}
    {top : JTop} {m : String} {s s1 : Store} (ns : List String)
    (hg : getFile A n = some (.json top))
    (hpr : processRows (jsonRowStep src) (extractJsonRows top) s = (.error m, s1)) :
    processJsonNames src A (n :: ns) s = (.error m, s1) := by
  simp [processJsonNames, hg, hpr]

/-! ### Store-growth and replay lemmas -/

theorem storeExt_refl (s : Store) : storeExt s s :=
  ⟨fun _ h => h, fun _ h => h⟩

theorem storeExt_trans {a b c : Store} (h1 : storeExt a b) (h2 : storeExt b c) :
    storeExt a c :=
  ⟨fun v hv => h2.1 v (h1.1 v hv), fun ts hts => h2.2 ts (h1.2 ts hts)⟩

theorem hasLog_mono {s t : Store} {l : List StoredRow} (h : t.rows = s.rows ++ l)
    {v : JVal} (hv : hasLog s v = true) : hasLog t v = true := by
  unfold hasLog at *
  rw [h, List.any_append, hv, Bool.true_or]

theorem hasTs_mono {s t : Store} {l : List StoredRow} (h : t.rows = s.rows ++ l)
    {ts : String} (hts : hasTs s ts = true) : hasTs t ts = true := by
  unfold hasTs at *
  rw [h, List.any_append, hts, Bool.true_or]

theorem storeExt_of_append {s t : Store} {l : List StoredRow}
    (h : t.rows = s.rows ++ l) : storeExt s t :=
  ⟨fun _ hv => hasLog_mono h hv, fun _ hts => hasTs_mono h hts⟩

theorem entry_exists_mono {s t : Store} (h : storeExt s t) {lid : Option JVal}
    {ts : String} (he : entry_exists lid ts s = true) :
    entry_exists lid ts t = true := by
  unfold entry_exists at *
  cases lid with
  | none =>
    change (false || hasTs s ts) = true at he
    change (false || hasTs t ts) = true
    rw [Bool.false_or] at he ⊢
    exact h.2 ts he
  | some v =>
    change (hasLog s v || hasTs s ts) = true at he
    change (hasLog t v || hasTs t ts) = true
    cases hl : hasLog s v with
    | true => rw [h.1 v hl, Bool.true_or]
    | false =>
      rw [hl, Bool.false_or] at he
      rw [h.2 ts he, Bool.or_true]

theorem entry_exists_of_hasTs {t : Store} {lid : Option JVal} {ts : String}
    (h : hasTs t ts = true) : entry_exists lid ts t = true := by
  unfold entry_exists
  rw [h, Bool.or_true]

theorem hasTs_add_entry (e : Entry) (s : Store) :
    hasTs (add_entry e s) (deriveTimestamp e.date e.time) = true := by
  unfold hasTs add_entry
  simp [mkRow]

theorem processRows_append (step : Row → StepRes) (rows : List Row) :
    ∀ s : Store, ∃ l, (processRows step rows s).2.rows = s.rows ++ l := by
  induction rows with
  | nil => intro s; exact ⟨[], by simp [processRows_nil]⟩
  | cons r rs ih =>
    intro s
    cases hstep : step r with
    | skip =>
      rw [processRows_cons_skip rs s hstep]
      exact ih s
    | fail m =>
      rw [processRows_cons_fail rs s hstep]
      exact ⟨[], by simp⟩
    | entry e =>
      cases hex : entry_exists e.logId (deriveTimestamp e.date e.time) s with
      | true =>
        rw [processRows_cons_dup rs hstep hex]
        exact ih s
      | false =>
        rw [processRows_cons_fresh rs hstep hex]
        obtain ⟨l, hl⟩ := ih (add_entry e s)
        refine ⟨mkRow s.nextId e :: l, ?_⟩
        rw [hl]
        simp [add_entry]

theorem processRows_replay (step : Row → StepRes) (rows : List Row) :
    ∀ (s s1 t : Store) (n : Nat),
      processRows step rows s = (.ok n, s1) → storeExt s1 t →
      processRows step rows t = (.ok 0, t) := by
  induction rows with
  | nil =>
    intro s s1 t n h hext
    exact processRows_nil step t
  | cons r rs ih =>
    intro s s1 t n h hext
    cases hstep : step r with
    | skip =>
      rw [processRows_cons_skip rs s hstep] at h
      rw [processRows_cons_skip rs t hstep]
      exact ih s s1 t n h hext
    | fail m =>
      rw [processRows_cons_fail rs s hstep] at h
      exact absurd (congrArg Prod.fst h) (by simp)
    | entry e =>
      cases hex : entry_exists e.logId (deriveTimestamp e.date e.time) s with
      | true =>
        rw [processRows_cons_dup rs hstep hex] at h
        obtain ⟨l, hl⟩ := processRows_append step rs s
        rw [h] at hl
        have hst : storeExt s t := storeExt_trans (storeExt_of_append hl) hext
        have hexT : entry_exists e.logId (deriveTimestamp e.date e.time) t = true :=
          entry_exists_mono hst hex
        rw [processRows_cons_dup rs hstep hexT]
        exact ih s s1 t n h hext
      | false =>
        rw [processRows_cons_fresh rs hstep hex] at h
        rcases hres : processRows step rs (add_entry e s) with ⟨e1, st1⟩
        rw [hres] at h
        have hst1 : st1 = s1 := congrArg Prod.snd h
        have he1 : e1.map (· + 1) = .ok n := congrArg Prod.fst h
        cases e1 with
        | error m => exact absurd he1 (by simp [Except.map])
        | ok k =>
        have hpair : processRows step rs (add_entry e s) = (.ok k, s1) := by
          rw [hres, hst1]
        obtain ⟨l, hl⟩ := processRows_append step rs (add_entry e s)
        rw [hpair] at hl
        have hadd : storeExt (add_entry e s) s1 := storeExt_of_append hl
        have hts : hasTs t (deriveTimestamp e.date e.time) = true :=
          hext.2 _ (hadd.2 _ (hasTs_add_entry e s))
        have hexT : entry_exists e.logId (deriveTimestamp e.date e.time) t = true :=
          entry_exists_of_hasTs hts
        rw [processRows_cons_dup rs hstep hexT]
        exact ih (add_entry e s) s1 t k hpair hext

theorem processJsonNames_append (src : String) (A : Archive) (ns : List String) :
    ∀ s : Store, ∃ l, (processJsonNames src A ns s).2.rows = s.rows ++ l := by
  induction ns with
  | nil => intro s; exact ⟨[], by simp [processJsonNames_nil]⟩
  | cons n ns ih =>
    intro s
    cases hg : getFile A n with
    | none => exact ⟨[], by simp [processJsonNames, hg]⟩
    | some fc =>
      cases fc with
      | csv rows => exact ⟨[], by simp [processJsonNames, hg]⟩
      | other => exact ⟨[], by simp [processJsonNames, hg]⟩
      | json top =>
        rcases hpr : processRows (jsonRowStep src) (extractJsonRows top) s with ⟨e1, s1⟩
        obtain ⟨l1, hl1⟩ := processRows_append (jsonRowStep src) (extractJsonRows top) s
        rw [hpr] at hl1
        simp only at hl1
        cases e1 with
        | error m =>
          rw [processJsonNames_cons_err ns hg hpr]
          exact ⟨l1, hl1⟩
        | ok k =>
          rw [processJsonNames_cons_ok ns hg hpr]
          obtain ⟨l2, hl2⟩ := ih s1
          exact ⟨l1 ++ l2, by simp only []; rw [hl2, hl1, List.append_assoc]⟩

theorem processJsonNames_replay (src : String) (A : Archive) (ns : List String) :
    ∀ (s s1 t : Store) (n : Nat),
      processJsonNames src A ns s = (.ok n, s1) → storeExt s1 t →
      processJsonNames src A ns t = (.ok 0, t) := by
  induction ns with
  | nil =>
    intro s s1 t n h hext
    exact processJsonNames_nil src A t
  | cons nm ns ih =>
    intro s s1 t n h hext
    cases hg : getFile A nm with
    | none =>
      rw [show processJsonNames src A (nm :: ns) s = (.error "json read failure", s) by
        simp [processJsonNames, hg]] at h
      exact absurd (congrArg Prod.fst h) (by simp)
    | some fc =>
      cases fc with
      | csv rows =>
        rw [show processJsonNames src A (nm :: ns) s = (.error "json read failure", s) by
          simp [processJsonNames, hg]] at h
        exact absurd (congrArg Prod.fst h) (by simp)
      | other =>
        rw [show processJsonNames src A (nm :: ns) s = (.error "json read failure", s) by
          simp [processJsonNames, hg]] at h
        exact absurd (congrArg Prod.fst h) (by simp)
      | json top =>
        rcases hpr : processRows (jsonRowStep src) (extractJsonRows top) s with ⟨e1, s2⟩
        cases e1 with
        | error m =>
          rw [processJsonNames_cons_err ns hg hpr] at h
          exact absurd (congrArg Prod.fst h) (by simp)
        | ok k =>
          rw [processJsonNames_cons_ok ns hg hpr] at h
          rcases hjs : processJsonNames src A ns s2 with ⟨e2, s3⟩
          rw [hjs] at h
          have hs3 : s3 = s1 := congrArg Prod.snd h
          have he2 : e2.map (k + ·) = .ok n := congrArg Prod.fst h
          cases e2 with
          | error msg => exact absurd he2 (by simp [Except.map])
          | ok m =>
          have hjpair : processJsonNames src A ns s2 = (.ok m, s1) := by
            rw [hjs, hs3]
          obtain ⟨l2, hl2⟩ := processJsonNames_append src A ns s2
          rw [hjpair] at hl2
          have hs2ext : storeExt s2 s1 := storeExt_of_append hl2
          have hreplay :=
            processRows_replay (jsonRowStep src) (extractJsonRows top) s s2 t k hpr
              (storeExt_trans hs2ext hext)
          rw [processJsonNames_cons_ok ns hg hreplay]
          rw [ih s2 s1 t m hjpair hext]
          rfl

theorem import_replay {src : String} {A : Archive} {s s1 t : Store} {n : Nat}
    (h : import_fitbit_zip src A s = (.ok n, s1)) (hext : storeExt s1 t) :
    import_fitbit_zip src A t = (.ok 0, t) := by
  cases hf : (A.map (fun p => p.1)).find? (fun nm => strEndsWith nm "Weight.csv") with
  | some wname =>
    simp only [import_fitbit_zip, hf] at h ⊢
    cases hg : getFile A wname with
    | none =>
      simp only [hg] at h
      exact absurd (congrArg Prod.fst h) (by simp)
    | some fc =>
      simp only [hg] at h ⊢
      cases fc with
      | json top => exact absurd (congrArg Prod.fst h) (by simp)
      | other => exact absurd (congrArg Prod.fst h) (by simp)
      | csv rows =>
        exact processRows_replay (csvRowStep src) (rows.map normalizeColumns) s s1 t n h hext
  | none =>
    simp only [import_fitbit_zip, hf] at h ⊢
    cases hj : (A.map (fun p => p.1)).filter isWeightJsonName with
    | nil =>
      simp only [hj] at h
      exact absurd (congrArg Prod.fst h) (by simp)
    | cons a as =>
      simp only [hj] at h ⊢
      exact processJsonNames_replay src A (a :: as) s s1 t n h hext

theorem entry_exists_iff_isDuplicate (e : Entry) (s : Store) :
    entry_exists e.logId (deriveTimestamp e.date e.time) s = true ↔ isDuplicate e s := by
  unfold entry_exists isDuplicate
  cases e.logId with
  | none => simp
  | some v => simp

/-! ### Dict update/lookup lemmas -/

theorem find?_cons_pos {α : Type} (p : α → Bool) (a : α) (l : List α)
    (h : p a = true) : List.find? p (a :: l) = some a :=
  List.find?_cons_of_pos l h

theorem find?_cons_neg {α : Type} (p : α → Bool) (a : α) (l : List α)
    (h : p a = false) : List.find? p (a :: l) = List.find? p l :=
  List.find?_cons_of_neg l (by rw [h]; exact Bool.false_ne_true)

theorem rowSet_of_mem {row : Row} {k : String} (v : JVal)
    (h : row.any (fun p => p.1 == k) = true) :
    rowSet row k v = row.map (fun p => if p.1 == k then (k, v) else p) := by
  simp [rowSet, h]

theorem rowSet_of_not_mem {row : Row} {k : String} (v : JVal)
    (h : row.any (fun p => p.1 == k) = false) :
    rowSet row k v = row ++ [(k, v)] := by
  simp [rowSet, h]

theorem find?_map_set_self (row : Row) (k : String) (v : JVal)
    (h : row.any (fun p => p.1 == k) = true) :
    (row.map (fun p => if p.1 == k then (k, v) else p)).find? (fun p => p.1 == k) =
      some (k, v) := by
  induction row with
  | nil => simp at h
  | cons p ps ih =>
    cases hp : (p.1 == k) with
    | true =>
      simp only [List.map_cons, if_pos hp]
      exact find?_cons_pos (fun q => q.1 == k) (k, v) _ (by simp)
    | false =>
      have hnp : ¬ ((p.1 == k) = true) := by rw [hp]; exact Bool.false_ne_true
      simp only [List.map_cons, if_neg hnp]
      rw [find?_cons_neg (fun q => q.1 == k) p _ hp]
      apply ih
      rw [List.any_cons, hp, Bool.false_or] at h
      exact h

theorem find?_map_set_ne (row : Row) (k k' : String) (v : JVal) (hne : k' ≠ k) :
    (row.map (fun p => if p.1 == k then (k, v) else p)).find? (fun p => p.1 == k') =
      row.find? (fun p => p.1 == k') := by
  induction row with
  | nil => rfl
  | cons p ps ih =>
    cases hp : (p.1 == k) with
    | true =>
      have hpk : p.1 = k := eq_of_beq hp
      have hkk : ((k, v).1 == k') = false := by
        simp only [beq_eq_false_iff_ne]
        exact fun hc => hne (hc ▸ rfl)
      have hpp : (p.1 == k') = false := by
        simp only [beq_eq_false_iff_ne, hpk]
        exact fun hc => hne (hc ▸ rfl)
      simp only [List.map_cons, if_pos hp]
      rw [find?_cons_neg (fun q => q.1 == k') (k, v) _ hkk,
        find?_cons_neg (fun q => q.1 == k') p _ hpp]
      exact ih
    | false =>
      have hnp : ¬ ((p.1 == k) = true) := by rw [hp]; exact Bool.false_ne_true
      simp only [List.map_cons, if_neg hnp]
      cases hq : (p.1 == k') with
      | true =>
        rw [find?_cons_pos (fun q => q.1 == k') p _ hq,
          find?_cons_pos (fun q => q.1 == k') p _ hq]
      | false =>
        rw [find?_cons_neg (fun q => q.1 == k') p _ hq,
          find?_cons_neg (fun q => q.1 == k') p _ hq]
        exact ih

theorem rowGet_rowSet_self (row : Row) (k : String) (v : JVal) :
    rowGet (rowSet row k v) k = some v := by
  cases hany : row.any (fun p => p.1 == k) with
  | true =>
    rw [rowSet_of_mem v hany]
    unfold rowGet
    rw [find?_map_set_self row k v hany]
    rfl
  | false =>
    rw [rowSet_of_not_mem v hany]
    unfold rowGet
    rw [List.find?_append]
    have h1 : row.find? (fun p => p.1 == k) = none :=
      List.find?_eq_none.mpr (List.any_eq_false.mp hany)
    rw [h1, find?_cons_pos (fun q => q.1 == k) (k, v) [] (by simp)]
    rfl

theorem rowGet_rowSet_ne (row : Row) (k k' : String) (v : JVal) (hne : k' ≠ k) :
    rowGet (rowSet row k v) k' = rowGet row k' := by
  cases hany : row.any (fun p => p.1 == k) with
  | true =>
    rw [rowSet_of_mem v hany]
    unfold rowGet
    rw [find?_map_set_ne row k k' v hne]
  | false =>
    rw [rowSet_of_not_mem v hany]
    unfold rowGet
    rw [List.find?_append]
    have h2 : List.find? (fun p => p.1 == k') [(k, v)] = none := by
      rw [find?_cons_neg (fun q => q.1 == k') (k, v) [] (by
        simp only [beq_eq_false_iff_ne]
        exact fun hc => hne (hc ▸ rfl))]
      rfl
    rw [h2, Option.or_none]

theorem find?_filter_erase_self (row : Row) (k : String) :
    (row.filter (fun p => !(p.1 == k))).find? (fun p => p.1 == k) = none := by
  apply List.find?_eq_none.mpr
  intro x hx
  have hmem := (List.mem_filter.mp hx).2
  simp only [Bool.not_eq_true'] at hmem
  rw [hmem]
  exact Bool.false_ne_true

theorem find?_filter_erase_ne (row : Row) (k k' : String) (hne : k' ≠ k) :
    (row.filter (fun p => !(p.1 == k))).find? (fun p => p.1 == k') =
      row.find? (fun p => p.1 == k') := by
  induction row with
  | nil => rfl
  | cons p ps ih =>
    cases hp : (p.1 == k) with
    | true =>
      have hpk : p.1 = k := eq_of_beq hp
      have hpp : (p.1 == k') = false := by
        simp only [beq_eq_false_iff_ne, hpk]
        exact fun hc => hne (hc ▸ rfl)
      rw [List.filter_cons_of_neg (by simp [hp]),
        find?_cons_neg (fun q => q.1 == k') p _ hpp]
      exact ih
    | false =>
      rw [List.filter_cons_of_pos (by simp [hp])]
      cases hq : (p.1 == k') with
      | true =>
        rw [find?_cons_pos (fun q => q.1 == k') p _ hq,
          find?_cons_pos (fun q => q.1 == k') p _ hq]
      | false =>
        rw [find?_cons_neg (fun q => q.1 == k') p _ hq,
          find?_cons_neg (fun q => q.1 == k') p _ hq]
        exact ih

theorem rowGet_rowSetOpt_self (row : Row) (k : String) (v : Option JVal) :
    rowGet (rowSetOpt row k v) k = v := by
  cases v with
  | some w => exact rowGet_rowSet_self row k w
  | none =>
    unfold rowSetOpt rowGet
    rw [find?_filter_erase_self row k]
    rfl

theorem rowGet_rowSetOpt_ne (row : Row) (k k' : String) (v : Option JVal)
    (hne : k' ≠ k) : rowGet (rowSetOpt row k v) k' = rowGet row k' := by
  cases v with
  | some w => exact rowGet_rowSet_ne row k k' w hne
  | none =>
    unfold rowSetOpt rowGet
    rw [find?_filter_erase_ne row k k' hne]

/-! ### Claim theorems -/

/-- C1: archive import is idempotent — if importing archive `A` into the
empty store succeeds with `new_count = n` and final store `s1`, then a
second import of the same archive returns `new_count = 0` and leaves the
store (in particular its row count) unchanged. -/
theorem c1_import_idempotent (src : String) (A : Archive) (n : Nat) (s1 : Store)
    (h : import_fitbit_zip src A emptyStore = (.ok n, s1)) :
    import_fitbit_zip src A s1 = (.ok 0, s1) ∧
    (import_fitbit_zip src A s1).2.rows.length = s1.rows.length := by
  have hrep := import_replay h (storeExt_refl s1)
  exact ⟨hrep, by rw [hrep]⟩

/-- Witness for C1 at the concrete archive `c1Arc`, whose first import
yields one new row. -/
theorem c1_witness :
    import_fitbit_zip "Fitbit" c1Arc c1Store = (.ok 0, c1Store) ∧
    (import_fitbit_zip "Fitbit" c1Arc c1Store).2.rows.length = c1Store.rows.length :=
  c1_import_idempotent "Fitbit" c1Arc 1 c1Store (by rfl)

/-- C2: the dedup-insert contract of `add_if_new` — when no existing row
shares the entry's non-null `logId` and none has its derived timestamp,
it returns `true` and appends exactly one row; otherwise it returns
`false` and leaves the store completely unchanged. -/
theorem c2_add_if_new_contract (e : Entry) (s : Store) :
    (¬ isDuplicate e s →
      add_if_new e s = (true, ⟨s.rows ++ [mkRow s.nextId e], s.nextId + 1⟩)) ∧
    (isDuplicate e s → add_if_new e s = (false, s)) := by
  constructor
  · intro hdup
    have hex : entry_exists e.logId (deriveTimestamp e.date e.time) s = false := by
      cases hq : entry_exists e.logId (deriveTimestamp e.date e.time) s with
      | true => exact absurd ((entry_exists_iff_isDuplicate e s).mp hq) hdup
      | false => rfl
    rw [add_if_new_fresh hex]
    rfl
  · intro hdup
    exact add_if_new_dup ((entry_exists_iff_isDuplicate e s).mpr hdup)

/-- Witness for C2: inserting a fresh entry into the empty store
appends it, and re-inserting the same entry is rejected with the store
unchanged. -/
theorem c2_witness :
    add_if_new c2Entry emptyStore = (true, add_entry c2Entry emptyStore) ∧
    add_if_new c2Entry (add_entry c2Entry emptyStore) =
      (false, add_entry c2Entry emptyStore) := by
  constructor
  · exact (c2_add_if_new_contract c2Entry emptyStore).1 (by
      rintro (⟨v, _, hv⟩ | hts)
      · simp [hasLog, emptyStore] at hv
      · simp [hasTs, emptyStore] at hts)
  · exact (c2_add_if_new_contract c2Entry (add_entry c2Entry emptyStore)).2
      (Or.inr (by rfl))

/-- C3: unit normalization — the GUI (device-import) path keeps a weight
at or under 100 unchanged and multiplies a weight over 100 by
`0.45359237`; the archive CSV/JSON path does the same with threshold
200; and every entry produced by the archive row steps carries the
normalized weight. -/
theorem c3_unit_normalization (q : ℚ) (v : JVal) :
    (q ≤ 100 → guiNormalize v q = v) ∧
    (100 < q → guiNormalize v q = .jnum (q * lbToKg)) ∧
    (q ≤ 200 → zipNormalize q = q) ∧
    (200 < q → zipNormalize q = q * lbToKg) ∧
    (∀ src row e, csvRowStep src row = .entry e →
      ∃ w q0, csvResolveWeight row = some w ∧ pyFloat w = .ok q0 ∧
        e.weight_kg = some (.jnum (zipNormalize q0))) ∧
    (∀ src row e, jsonRowStep src row = .entry e →
      ∃ w q0, jsonResolveWeight row = some w ∧ pyFloat w = .ok q0 ∧
        e.weight_kg = some (.jnum (zipNormalize q0))) := by
  refine ⟨?_, ?_, ?_, ?_, ?_, ?_⟩
  · intro h
    unfold guiNormalize
    rw [if_neg (not_lt.mpr h)]
  · intro h
    unfold guiNormalize
    rw [if_pos h]
  · intro h
    unfold zipNormalize
    rw [if_neg (not_lt.mpr h)]
  · intro h
    unfold zipNormalize
    rw [if_pos h]
  · intro src row e h
    cases hw : csvResolveWeight row with
    | none =>
      simp only [csvRowStep, hw] at h
      exact StepRes.noConfusion h
    | some w =>
      simp only [csvRowStep, hw] at h
      cases hf : pyFloat w with
      | error m =>
        simp only [hf] at h
        exact StepRes.noConfusion h
      | ok q0 =>
        simp only [hf] at h
        cases hd : reformatDate (rowGet row "date") with
        | error m =>
          simp only [hd] at h
          exact StepRes.noConfusion h
        | ok d =>
          simp only [hd] at h
          refine ⟨w, q0, rfl, hf, ?_⟩
          cases h
          rfl
  · intro src row e h
    cases hw : jsonResolveWeight row with
    | none =>
      simp only [jsonRowStep, hw] at h
      exact StepRes.noConfusion h
    | some w =>
      cases hdv : jsonResolveDate row with
      | none =>
        simp only [jsonRowStep, hw, hdv] at h
        exact StepRes.noConfusion h
      | some dv =>
        simp only [jsonRowStep, hw, hdv] at h
        cases hf : pyFloat w with
        | error m =>
          simp only [hf] at h
          exact StepRes.noConfusion h
        | ok q0 =>
          simp only [hf] at h
          cases hd : reformatDate (some dv) with
          | error m =>
            simp only [hd] at h
            exact StepRes.noConfusion h
          | ok d =>
            simp only [hd] at h
            refine ⟨w, q0, rfl, hf, ?_⟩
            cases h
            rfl

/-- Witness for C3 at concrete weights on both sides of each
threshold. -/
theorem c3_witness :
    guiNormalize (.jint 90) 90 = .jint 90 ∧
    guiNormalize (.jint 150) 150 = .jnum (150 * lbToKg) ∧
    zipNormalize 150 = 150 ∧
    zipNormalize 250 = 250 * lbToKg :=
  ⟨(c3_unit_normalization 90 (.jint 90)).1 (by norm_num),
   (c3_unit_normalization 150 (.jint 150)).2.1 (by norm_num),
   (c3_unit_normalization 150 (.jint 150)).2.2.1 (by norm_num),
   (c3_unit_normalization 250 (.jint 250)).2.2.2.1 (by norm_num)⟩

/-- C4: timestamp derivation — the row written by `add_entry` (and by
`update_entry` for the matching id, and by the GUI `add_entry`) stores
the `%Y-%m-%d %H:%M:%S` reformatting of `"date time"` when
`strptime("%m/%d/%y %H:%M:%S")` succeeds and the raw concatenation when
it fails; a parse failure never aborts the write (the writes below
succeed unconditionally). -/
theorem c4_timestamp_derivation (e : Entry) (s : Store) :
    ((add_entry e s).rows = s.rows ++ [mkRow s.nextId e] ∧
      (mkRow s.nextId e).timestamp =
        (match strptimeMdyHms (e.date ++ " " ++ e.time) with
         | some dt => strftimeIsoDT dt
         | none => e.date ++ " " ++ e.time)) ∧
    (∀ (entryId : Int) (r : StoredRow), r ∈ (update_entry entryId e s).rows →
      r.id = entryId →
      r.timestamp =
        (match strptimeMdyHms (e.date ++ " " ++ e.time) with
         | some dt => strftimeIsoDT dt
         | none => e.date ++ " " ++ e.time)) ∧
    (∀ (row : Row) (d t : String) (s0 : Store),
      rowGet row "date" = some (.jstr d) → rowGet row "time" = some (.jstr t) →
      ∃ s1, gui_add_entry row s0 = .ok s1 ∧
        ∃ r, s1.rows = s0.rows ++ [r] ∧
          r.timestamp =
            (match strptimeMdyHms (d ++ " " ++ t) with
             | some dt => strftimeIsoDT dt
             | none => d ++ " " ++ t)) := by
  refine ⟨⟨rfl, rfl⟩, ?_, ?_⟩
  · intro entryId r hr hid
    unfold update_entry at hr
    obtain ⟨r0, hr0, heq⟩ := List.mem_map.mp hr
    cases hq : r0.id == entryId with
    | true =>
      rw [if_pos hq] at heq
      rw [← heq]
      rfl
    | false =>
      rw [if_neg (by rw [hq]; exact Bool.false_ne_true)] at heq
      rw [← heq] at hid
      exact absurd (beq_iff_eq.mpr hid) (by rw [hq]; exact Bool.false_ne_true)
  · intro row d t s0 hd ht
    refine ⟨⟨s0.rows ++ [⟨s0.nextId, rowGet row "logId", d, t, deriveTimestamp d t,
        rowGet row "weight_kg", rowGet row "fat", rowGet row "bmi",
        rowGet row "source"⟩], s0.nextId + 1⟩, ?_, ?_⟩
    · simp only [gui_add_entry, hd, ht]
    · exact ⟨_, rfl, rfl⟩

/-- Witness for C4: the GUI write at a concrete row whose date/time
parse, instantiating the hypotheses of the third conjunct. -/
theorem c4_witness :
    ∃ s1, gui_add_entry c6GuiRow emptyStore = .ok s1 ∧
      ∃ r, s1.rows = emptyStore.rows ++ [r] ∧
        r.timestamp =
          (match strptimeMdyHms ("01/05/23" ++ " " ++ "08:00:00") with
           | some dt => strftimeIsoDT dt
           | none => "01/05/23" ++ " " ++ "08:00:00") :=
  (c4_timestamp_derivation c2Entry emptyStore).2.2 c6GuiRow "01/05/23" "08:00:00"
    emptyStore (by rfl) (by rfl)

/-- C5 counterexample: with a configured height of `1.75`, importing a
JSON row with `weight = 70` and a source `bmi = 25` through the web zip
route stores `bmi = 25`, not `70 / 1.75² ≈ 22.86` —
`import_fitbit_zip` never consults the configured height, contradicting
the claim that every imported entry's BMI is recomputed when a height is
configured. -/
theorem c5_counterexample :
    (import_zip_route (some (7 / 4)) "Fitbit" c5Arc emptyStore).rows.map
        (fun r => r.bmi) = [some (.jnum 25)] ∧
    some (JVal.jnum 25) ≠ some (JVal.jnum (70 / (7 / 4 : ℚ) ^ 2)) :=
  ⟨rfl, by
    simp only [ne_eq, Option.some.injEq, JVal.jnum.injEq]
    norm_num⟩

/-- C5 amended: height-based BMI recomputation (`bmi = w / h²` with `w`
the stored weight) happens on the web manual-add route, the web edit
route, and the GUI JSON import — whenever the configured height is
truthy (nonzero); the web archive import always stores the source row's
`bmi` value (null if absent) regardless of any configured height; and
with no height configured, added and edited entries get null `bmi`
while the GUI path keeps the source-provided value. -/
theorem c5_bmi_recompute_amended :
    (∀ (h : ℚ) (lid : Option Int) (d t : String) (w : ℚ) (f : Option ℚ)
        (src : String) (s : Store), h ≠ 0 →
      ∃ r, add_entry_route (some h) lid d t (some w) f src s =
          .ok ⟨s.rows ++ [r], s.nextId + 1⟩ ∧
        r.bmi = some (.jnum (w / h ^ 2))) ∧
    (∀ (h : ℚ) (entryId : Int) (lid : Option Int) (d t : String) (w : ℚ)
        (f : Option ℚ) (src : String) (s s1 : Store), h ≠ 0 →
      edit_entry_route (some h) entryId lid d t (some w) f src s = .ok s1 →
      ∀ r ∈ s1.rows, r.id = entryId → r.bmi = some (.jnum (w / h ^ 2))) ∧
    (∀ (h : ℚ) (prevW : Option JVal) (row : Row) (v : JVal) (q : ℚ), h ≠ 0 →
      rowGet row "weight" = some v → pyToRat v = .ok q →
      ∃ row1 w1, guiProcessRow (some h) prevW row = .ok (row1, w1) ∧
        rowGet row1 "bmi" =
          some (.jnum ((if 100 < q then q * lbToKg else q) / h ^ 2))) ∧
    (∀ src row e, jsonRowStep src row = .entry e → e.bmi = rowGet row "bmi") ∧
    (∀ src row e, csvRowStep src row = .entry e → e.bmi = rowGet row "bmi") ∧
    (∀ (lid : Option Int) (d t : String) (w f : Option ℚ) (src : String) (s : Store),
      ∃ r, add_entry_route none lid d t w f src s =
          .ok ⟨s.rows ++ [r], s.nextId + 1⟩ ∧ r.bmi = none) ∧
    (∀ (prevW : Option JVal) (row row1 : Row) (w1 : Option JVal),
      guiProcessRow none prevW row = .ok (row1, w1) →
      rowGet row1 "bmi" = rowGet row "bmi") ∧
    (∀ (entryId : Int) (lid : Option Int) (d t : String) (w f : Option ℚ)
        (src : String) (s : Store),
      ∃ s1, edit_entry_route none entryId lid d t w f src s = .ok s1 ∧
        ∀ r ∈ s1.rows, r.id = entryId → r.bmi = none) := by
  refine ⟨?_, ?_, ?_, ?_, ?_, ?_, ?_, ?_⟩
  · intro h lid d t w f src s hne
    have hb : (h == 0) = false := beq_eq_false_iff_ne.mpr hne
    refine ⟨mkRow s.nextId ⟨lid.map .jint, d, t, some (.jnum w), f.map .jnum,
      some (.jnum (w / h ^ 2)), src⟩, ?_, rfl⟩
    simp [add_entry_route, hb]
    rfl
  · intro h entryId lid d t w f src s s1 hne hok r hr hid
    have hb : (h == 0) = false := beq_eq_false_iff_ne.mpr hne
    have heq : edit_entry_route (some h) entryId lid d t (some w) f src s =
        .ok (update_entry entryId ⟨lid.map .jint, d, t, some (.jnum w), f.map .jnum,
          some (.jnum (w / h ^ 2)), src⟩ s) := by
      simp [edit_entry_route, hb]
    rw [heq] at hok
    have hs1 := (Except.ok.inj hok).symm
    subst hs1
    unfold update_entry at hr
    obtain ⟨r0, _, heq0⟩ := List.mem_map.mp hr
    cases hq : r0.id == entryId with
    | true =>
      rw [if_pos hq] at heq0
      rw [← heq0]
      rfl
    | false =>
      rw [if_neg (by rw [hq]; exact Bool.false_ne_true)] at heq0
      rw [← heq0] at hid
      exact absurd (beq_iff_eq.mpr hid) (by rw [hq]; exact Bool.false_ne_true)
  · intro h prevW row v q hne hw hv
    have hb : (h == 0) = false := beq_eq_false_iff_ne.mpr hne
    by_cases hq : 100 < q
    · refine ⟨rowSet (rowSet row "weight_kg" (.jnum (q * lbToKg))) "bmi"
          (.jnum ((q * lbToKg) / h ^ 2)), some (.jnum (q * lbToKg)), ?_, ?_⟩
      · have hpr : pyToRat (JVal.jnum (q * lbToKg)) = .ok (q * lbToKg) := rfl
        simp [guiProcessRow, hw, hv, guiNormalize, hq, hb, hpr]
      · rw [rowGet_rowSet_self, if_pos hq]
    · refine ⟨rowSet (rowSet row "weight_kg" v) "bmi" (.jnum (q / h ^ 2)),
          some v, ?_, ?_⟩
      · simp [guiProcessRow, hw, hv, guiNormalize, hq, hb]
      · rw [rowGet_rowSet_self, if_neg hq]
  · intro src row e h
    cases hw : jsonResolveWeight row with
    | none =>
      simp only [jsonRowStep, hw] at h
      exact StepRes.noConfusion h
    | some w =>
      cases hdv : jsonResolveDate row with
      | none =>
        simp only [jsonRowStep, hw, hdv] at h
        exact StepRes.noConfusion h
      | some dv =>
        simp only [jsonRowStep, hw, hdv] at h
        cases hf : pyFloat w with
        | error m =>
          simp only [hf] at h
          exact StepRes.noConfusion h
        | ok q0 =>
          simp only [hf] at h
          cases hd : reformatDate (some dv) with
          | error m =>
            simp only [hd] at h
            exact StepRes.noConfusion h
          | ok d =>
            simp only [hd] at h
            cases h
            rfl
  · intro src row e h
    cases hw : csvResolveWeight row with
    | none =>
      simp only [csvRowStep, hw] at h
      exact StepRes.noConfusion h
    | some w =>
      simp only [csvRowStep, hw] at h
      cases hf : pyFloat w with
      | error m =>
        simp only [hf] at h
        exact StepRes.noConfusion h
      | ok q0 =>
        simp only [hf] at h
        cases hd : reformatDate (rowGet row "date") with
        | error m =>
          simp only [hd] at h
          exact StepRes.noConfusion h
        | ok d =>
          simp only [hd] at h
          cases h
          rfl
  · intro lid d t w f src s
    exact ⟨mkRow s.nextId ⟨lid.map .jint, d, t, w.map .jnum, f.map .jnum, none, src⟩,
      rfl, rfl⟩
  · intro prevW row row1 w1 hok
    cases hw : rowGet row "weight" with
    | none =>
      simp only [guiProcessRow, hw] at hok
      injection hok with hpair
      injection hpair with h1 h2
      rw [← h1]
      exact rowGet_rowSetOpt_self row "bmi" (rowGet row "bmi")
    | some v =>
      cases hv : pyToRat v with
      | error m =>
        simp only [guiProcessRow, hw, hv] at hok
        exact Except.noConfusion hok
      | ok q =>
        simp only [guiProcessRow, hw, hv] at hok
        injection hok with hpair
        injection hpair with h1 h2
        rw [← h1]
        rw [rowGet_rowSetOpt_self]
        exact rowGet_rowSet_ne row "weight_kg" "bmi" _ (by decide)
  · intro entryId lid d t w f src s
    refine ⟨update_entry entryId ⟨lid.map .jint, d, t, w.map .jnum, f.map .jnum,
      none, src⟩ s, rfl, ?_⟩
    intro r hr hid
    unfold update_entry at hr
    obtain ⟨r0, _, heq0⟩ := List.mem_map.mp hr
    cases hq : r0.id == entryId with
    | true =>
      rw [if_pos hq] at heq0
      rw [← heq0]
      rfl
    | false =>
      rw [if_neg (by rw [hq]; exact Bool.false_ne_true)] at heq0
      rw [← heq0] at hid
      exact absurd (beq_iff_eq.mpr hid) (by rw [hq]; exact Bool.false_ne_true)

/-- Witness for C5 (amended): manual add with height `1.75` and weight
80 stores `bmi = 80 / 1.75²`. -/
theorem c5_witness :
    ∃ r, add_entry_route (some (7 / 4)) none "01/05/23" "08:00:00" (some 80) none
        "Manual" emptyStore = .ok ⟨emptyStore.rows ++ [r], emptyStore.nextId + 1⟩ ∧
      r.bmi = some (.jnum (80 / (7 / 4 : ℚ) ^ 2)) :=
  c5_bmi_recompute_amended.1 (7 / 4) none "01/05/23" "08:00:00" 80 none "Manual"
    emptyStore (by norm_num)

/-- C6 counterexample: importing a legacy CSV whose single row has a
weight but no date does not skip the row — it is counted
(`new_count = 1`) and stored with the literal date string `"None"`,
because the CSV loop never checks `date_val` for `None`. -/
theorem c6_counterexample :
    (import_fitbit_zip "Fitbit" c6Arc emptyStore).1 = .ok 1 ∧
    (import_fitbit_zip "Fitbit" c6Arc emptyStore).2.rows.map (fun r => r.date) =
      ["None"] :=
  ⟨rfl, rfl⟩

/-- C6 amended: on the web JSON path a row is skipped exactly when its
resolved weight or resolved date is `None`; on the web CSV path a row is
skipped exactly when its resolved weight is `None` (a missing date is
stored as the string `"None"`); a skipped row is not inserted, not
counted and not an error; and on the GUI path a row lacking a weight is
not skipped — with no height configured it is inserted with a null
`weight_kg`. -/
theorem c6_row_admission_amended :
    (∀ src row, csvRowStep src row = .skip ↔ csvResolveWeight row = none) ∧
    (∀ src row, jsonRowStep src row = .skip ↔
      (jsonResolveWeight row = none ∨ jsonResolveDate row = none)) ∧
    (∀ (step : Row → StepRes) (row : Row) (rs : List Row) (s : Store),
      step row = .skip → processRows step (row :: rs) s = processRows step rs s) ∧
    (∀ (row : Row) (prevW : Option JVal) (s : Store) (d t : String),
      rowGet row "weight" = none → rowGet row "weight_kg" = none →
      rowGet row "date" = some (.jstr d) → rowGet row "time" = some (.jstr t) →
      ∃ r, guiProcessRows none [row] prevW s = (.ok (), ⟨s.rows ++ [r], s.nextId + 1⟩) ∧
        r.weight_kg = none) := by
  refine ⟨?_, ?_, ?_, ?_⟩
  · intro src row
    constructor
    · intro h
      cases hw : csvResolveWeight row with
      | none => rfl
      | some w =>
        simp only [csvRowStep, hw] at h
        cases hf : pyFloat w with
        | error m =>
          simp only [hf] at h
          exact StepRes.noConfusion h
        | ok q0 =>
          simp only [hf] at h
          cases hd : reformatDate (rowGet row "date") with
          | error m =>
            simp only [hd] at h
            exact StepRes.noConfusion h
          | ok d =>
            simp only [hd] at h
            exact StepRes.noConfusion h
    · intro h
      simp [csvRowStep, h]
  · intro src row
    constructor
    · intro h
      cases hw : jsonResolveWeight row with
      | none => exact Or.inl rfl
      | some w =>
        cases hdv : jsonResolveDate row with
        | none => exact Or.inr rfl
        | some dv =>
          simp only [jsonRowStep, hw, hdv] at h
          cases hf : pyFloat w with
          | error m =>
            simp only [hf] at h
            exact StepRes.noConfusion h
          | ok q0 =>
            simp only [hf] at h
            cases hd : reformatDate (some dv) with
            | error m =>
              simp only [hd] at h
              exact StepRes.noConfusion h
            | ok d =>
              simp only [hd] at h
              exact StepRes.noConfusion h
    · intro h
      cases h with
      | inl hw => simp [jsonRowStep, hw]
      | inr hdv =>
        cases hw : jsonResolveWeight row with
        | none => simp [jsonRowStep, hw]
        | some w => simp [jsonRowStep, hw, hdv]
  · intro step row rs s h
    exact processRows_cons_skip rs s h
  · intro row prevW s d t hw hwkg hd ht
    have hne1 : ("date" : String) ≠ "bmi" := by decide
    have hne2 : ("time" : String) ≠ "bmi" := by decide
    have hne3 : ("weight_kg" : String) ≠ "bmi" := by decide
    have hrow1d : rowGet (rowSetOpt row "bmi" (rowGet row "bmi")) "date" =
        some (.jstr d) := by
      rw [rowGet_rowSetOpt_ne row "bmi" "date" _ hne1]
      exact hd
    have hrow1t : rowGet (rowSetOpt row "bmi" (rowGet row "bmi")) "time" =
        some (.jstr t) := by
      rw [rowGet_rowSetOpt_ne row "bmi" "time" _ hne2]
      exact ht
    have hrow1w : rowGet (rowSetOpt row "bmi" (rowGet row "bmi")) "weight_kg" =
        none := by
      rw [rowGet_rowSetOpt_ne row "bmi" "weight_kg" _ hne3]
      exact hwkg
    refine ⟨⟨s.nextId, rowGet (rowSetOpt row "bmi" (rowGet row "bmi")) "logId", d, t,
      deriveTimestamp d t, none,
      rowGet (rowSetOpt row "bmi" (rowGet row "bmi")) "fat",
      rowGet (rowSetOpt row "bmi" (rowGet row "bmi")) "bmi",
      rowGet (rowSetOpt row "bmi" (rowGet row "bmi")) "source"⟩, ?_, rfl⟩
    simp only [guiProcessRows, guiProcessRow, hw]
    simp only [gui_add_entry, hrow1d, hrow1t, hrow1w]

/-- Witness for C6 (amended): the GUI inserts a concrete weightless row
with a null stored weight. -/
theorem c6_witness :
    ∃ r, guiProcessRows none [c6GuiRow] none emptyStore =
        (.ok (), ⟨emptyStore.rows ++ [r], emptyStore.nextId + 1⟩) ∧
      r.weight_kg = none :=
  c6_row_admission_amended.2.2.2 c6GuiRow none emptyStore "01/05/23" "08:00:00"
    (by rfl) (by rfl) (by rfl) (by rfl)

/-- C7: format detection — an archive with neither a `Weight.csv` member
nor a `weight-*.json` member makes `import_fitbit_zip` raise
`"No weight data found in ZIP"` with nothing inserted; and in a batch,
that failure only records an error message, with the remaining files
still processed against the store as already committed. -/
theorem c7_format_detection (src : String) (A : Archive) (s : Store)
    (rest : List Archive) (h : unrecognizedArchive A) :
    import_fitbit_zip src A s = (.error "No weight data found in ZIP", s) ∧
    importBatch src (A :: rest) s =
      ((importBatch src rest s).1,
       "No weight data found in ZIP" :: (importBatch src rest s).2.1,
       (importBatch src rest s).2.2) := by
  have hf : (A.map (fun p => p.1)).find? (fun nm => strEndsWith nm "Weight.csv") =
      none := by
    apply List.find?_eq_none.mpr
    intro x hx
    obtain ⟨p, hp, rfl⟩ := List.mem_map.mp hx
    rw [h.1 p hp]
    exact Bool.false_ne_true
  have hj : (A.map (fun p => p.1)).filter isWeightJsonName = [] := by
    apply List.filter_eq_nil_iff.mpr
    intro x hx
    obtain ⟨p, hp, rfl⟩ := List.mem_map.mp hx
    rw [h.2 p hp]
    exact Bool.false_ne_true
  have himp : import_fitbit_zip src A s = (.error "No weight data found in ZIP", s) := by
    simp only [import_fitbit_zip, hf, hj]
  refine ⟨himp, ?_⟩
  simp only [importBatch, himp]

/-- Witness for C7: the unrecognized `c7BadArc` fails cleanly and a
batch continues past it. -/
theorem c7_witness :
    import_fitbit_zip "Fitbit" c7BadArc emptyStore =
      (.error "No weight data found in ZIP", emptyStore) ∧
    importBatch "Fitbit" (c7BadArc :: [c1Arc]) emptyStore =
      ((importBatch "Fitbit" [c1Arc] emptyStore).1,
       "No weight data found in ZIP" :: (importBatch "Fitbit" [c1Arc] emptyStore).2.1,
       (importBatch "Fitbit" [c1Arc] emptyStore).2.2) :=
  c7_format_detection "Fitbit" c7BadArc emptyStore [c1Arc] ⟨by decide, by decide⟩

/-- C8: end-to-end CSV scenario — importing the archive whose legacy
CSV holds the single row `date=2023-01-05, time=07:00:00, weight=220,
fat=18.2` into the empty store stores exactly one entry with
`weight_kg = 220 * 0.45359237 = 99.7903214 ≈ 99.79`,
`fat_percent = 18.2` and `timestamp = "2023-01-05 07:00:00"`. -/
theorem c8_end_to_end_csv :
    import_fitbit_zip "Fitbit" c8Arc emptyStore = (.ok 1, ⟨[c8Row], 2⟩) ∧
    |(220 * lbToKg : ℚ) - 9979 / 100| < 1 / 100 ∧
    (220 * lbToKg : ℚ) = 498951607 / 5000000 :=
  ⟨rfl, by
    rw [abs_of_nonneg (by norm_num [lbToKg])]
    norm_num [lbToKg], by norm_num [lbToKg]⟩

/-- Every entry produced by the JSON row step carries the resolved
`logId`, the source `bmi`, and the normalized weight. -/
theorem jsonRowStep_entry_fields {src : String} {row : Row} {e : Entry}
    (h : jsonRowStep src row = .entry e) :
    e.logId = jsonResolveLogId row ∧ e.bmi = rowGet row "bmi" := by
  cases hw : jsonResolveWeight row with
  | none =>
    simp only [jsonRowStep, hw] at h
    exact StepRes.noConfusion h
  | some w =>
    cases hdv : jsonResolveDate row with
    | none =>
      simp only [jsonRowStep, hw, hdv] at h
      exact StepRes.noConfusion h
    | some dv =>
      simp only [jsonRowStep, hw, hdv] at h
      cases hf : pyFloat w with
      | error m =>
        simp only [hf] at h
        exact StepRes.noConfusion h
      | ok q0 =>
        simp only [hf] at h
        cases hd : reformatDate (some dv) with
        | error m =>
          simp only [hd] at h
          exact StepRes.noConfusion h
        | ok d =>
          simp only [hd] at h
          cases h
          exact ⟨rfl, rfl⟩

/-- C9 counterexample: the JSON row
`{dateTime: "01/05/23", weight: 70, logid: 0}` is imported with a
stored `logId` of `0`, not null — a falsy `0` in the final synonym of
the or-chain is returned by the chain rather than treated as absent. -/
theorem c9_counterexample :
    (import_fitbit_zip "Fitbit" c9Arc emptyStore).1 = .ok 1 ∧
    (import_fitbit_zip "Fitbit" c9Arc emptyStore).2.rows.map (fun r => r.logId) =
      [some (.jint 0)] ∧
    (some (JVal.jint 0) : Option JVal) ≠ none :=
  ⟨rfl, rfl, by decide⟩

/-- C9 amended: a `0` in a non-final or-chain synonym falls through —
a row whose only weight field is `weight` (or `weight_kg`) with value 0
is skipped, and a row whose only logId field is `logId` with value 0 is
inserted with null `logId`; but a `0` in the final synonym (`logid`,
`weight (kg)`) is returned by the chain, so such a row is inserted with
`logId = 0` resp. `weight_kg = 0` instead of being treated as absent. -/
theorem c9_falsy_fields_amended :
    (∀ src row, rowGet row "weight" = some (.jint 0) →
      rowGet row "weight_kg" = none → rowGet row "weight (kg)" = none →
      jsonRowStep src row = .skip) ∧
    (∀ src row e, rowGet row "logId" = some (.jint 0) → rowGet row "logid" = none →
      jsonRowStep src row = .entry e → e.logId = none) ∧
    (∀ src row e, truthy (rowGet row "logId") = false →
      rowGet row "logid" = some (.jint 0) →
      jsonRowStep src row = .entry e → e.logId = some (.jint 0)) ∧
    (∀ src row, rowGet row "weight" = none → rowGet row "weight_kg" = none →
      rowGet row "weight (kg)" = some (.jint 0) → jsonResolveDate row ≠ none →
      jsonRowStep src row ≠ .skip ∧
      (∀ e, jsonRowStep src row = .entry e → e.weight_kg = some (.jnum 0))) ∧
    (∀ src row, truthy (rowGet row "weight") = false →
      rowGet row "weight_kg" = some (.jint 0) → rowGet row "weight (kg)" = none →
      jsonRowStep src row = .skip) := by
  refine ⟨?_, ?_, ?_, ?_, ?_⟩
  · intro src row hw hwkg hwkg2
    have hres : jsonResolveWeight row = none := by
      simp [jsonResolveWeight, pyOr, truthy, hw, hwkg, hwkg2]
    simp [jsonRowStep, hres]
  · intro src row e hlog hlogid hstep
    have hres : jsonResolveLogId row = none := by
      simp [jsonResolveLogId, pyOr, truthy, hlog, hlogid]
    rw [(jsonRowStep_entry_fields hstep).1, hres]
  · intro src row e hfalsy hlogid hstep
    have hres : jsonResolveLogId row = some (.jint 0) := by
      simp [jsonResolveLogId, pyOr, hfalsy, hlogid]
    rw [(jsonRowStep_entry_fields hstep).1, hres]
  · intro src row hw hwkg hwkg2 hdv
    have hres : jsonResolveWeight row = some (.jint 0) := by
      simp [jsonResolveWeight, pyOr, truthy, hw, hwkg, hwkg2]
    cases hd : jsonResolveDate row with
    | none => exact absurd hd hdv
    | some dv =>
      have hnorm : zipNormalize 0 = 0 := by norm_num [zipNormalize]
      cases hrd : reformatDate (some dv) with
      | error m =>
        constructor
        · simp only [jsonRowStep, hres, hd, pyFloat, hrd]
          exact fun hc => StepRes.noConfusion hc
        · intro e he
          simp only [jsonRowStep, hres, hd, pyFloat, hrd] at he
          exact absurd he (fun hc => StepRes.noConfusion hc)
      | ok dd =>
        constructor
        · simp only [jsonRowStep, hres, hd, pyFloat, hrd]
          exact fun hc => StepRes.noConfusion hc
        · intro e he
          simp only [jsonRowStep, hres, hd, pyFloat, hrd] at he
          cases he
          rw [show ((0 : Int) : ℚ) = (0 : ℚ) from rfl, hnorm]
  · intro src row hfw hwkg hwkg2
    have h1 : pyOr (rowGet row "weight") (rowGet row "weight_kg") = some (.jint 0) := by
      unfold pyOr
      rw [hfw]
      simp [hwkg]
    have hres : jsonResolveWeight row = none := by
      unfold jsonResolveWeight
      rw [h1]
      simp [pyOr, truthy, hwkg2]
    simp [jsonRowStep, hres]

/-- Witness for C9 (amended): a concrete row whose `weight` is 0 is
skipped, the concrete entry built from a `logId = 0` row has null
`logId`, and a concrete row whose `weight_kg` is 0 is skipped. -/
theorem c9_witness :
    jsonRowStep "Fitbit" c9RowA = .skip ∧ c9EntryB.logId = none ∧
    jsonRowStep "Fitbit" c9RowC = .skip :=
  ⟨c9_falsy_fields_amended.1 "Fitbit" c9RowA rfl rfl rfl,
   c9_falsy_fields_amended.2.1 "Fitbit" c9RowB c9EntryB rfl rfl (by rfl),
   c9_falsy_fields_amended.2.2.2.2 "Fitbit" c9RowC rfl rfl rfl⟩

/-- C10: update and delete are id-framed — `update_entry` and
`delete_entry` always complete (they are total functions); on an absent
id both leave the store untouched; `update_entry` preserves length,
rewrites exactly the rows whose id matches and leaves every other row
byte-for-byte unchanged; `delete_entry` removes exactly the rows whose
id matches; and neither touches the `AUTOINCREMENT` counter. -/
theorem c10_update_delete_frame (entryId : Int) (e : Entry) (s : Store) :
    ((∀ r ∈ s.rows, r.id ≠ entryId) →
      update_entry entryId e s = s ∧ delete_entry entryId s = s) ∧
    (update_entry entryId e s).rows.length = s.rows.length ∧
    (∀ (i : Nat) (h : i < s.rows.length),
      ((s.rows.get ⟨i, h⟩).id ≠ entryId →
        (update_entry entryId e s).rows.get
          ⟨i, by simpa [update_entry] using h⟩ = s.rows.get ⟨i, h⟩) ∧
      ((s.rows.get ⟨i, h⟩).id = entryId →
        (update_entry entryId e s).rows.get
          ⟨i, by simpa [update_entry] using h⟩ = mkRow entryId e)) ∧
    (∀ r, r ∈ (delete_entry entryId s).rows ↔ (r ∈ s.rows ∧ r.id ≠ entryId)) ∧
    (update_entry entryId e s).nextId = s.nextId ∧
    (delete_entry entryId s).nextId = s.nextId := by
  refine ⟨?_, by simp [update_entry], ?_, ?_, rfl, rfl⟩
  · intro hno
    constructor
    · have hrows : s.rows.map
          (fun r => if r.id == entryId then mkRow r.id e else r) = s.rows := by
        rw [show s.rows.map (fun r => if r.id == entryId then mkRow r.id e else r) =
            s.rows.map id from List.map_congr_left (fun r hr => by
          rw [if_neg (fun hc => hno r hr (eq_of_beq hc))]
          rfl), List.map_id]
      rw [update_entry, hrows]
    · have hrows : s.rows.filter (fun r => !(r.id == entryId)) = s.rows := by
        apply List.filter_eq_self.mpr
        intro r hr
        simp only [Bool.not_eq_true']
        exact beq_eq_false_iff_ne.mpr (hno r hr)
      rw [delete_entry, hrows]
  · intro i h
    constructor
    · intro hne
      simp only [List.get_eq_getElem] at hne ⊢
      simp only [update_entry, List.getElem_map]
      rw [if_neg (fun hc => hne (eq_of_beq hc))]
    · intro hid
      simp only [List.get_eq_getElem] at hid ⊢
      simp only [update_entry, List.getElem_map]
      rw [if_pos (beq_iff_eq.mpr hid), hid]
  · intro r
    simp only [delete_entry, List.mem_filter, Bool.not_eq_true', beq_eq_false_iff_ne]

/-- Witness for C10 at a concrete two-row store and an absent id. -/
theorem c10_witness :
    update_entry 5 c2Entry c10Store = c10Store ∧
    delete_entry 5 c10Store = c10Store :=
  (c10_update_delete_frame 5 c2Entry c10Store).1 (by decide)

end FatBit
